import Mathlib
set_option maxRecDepth 4000


/-!
Verification of the zentel analysis pipeline against its specification.

The Python sources under `backend/app` are shallowly embedded here:
text is modelled as `List Char` (written `Str`), Python string slicing,
`str.find`, `str.strip` and friends are given explicit Lean counterparts,
and every LLM / network call is replaced by an explicit oracle argument so
that the surrounding control flow (retry loops, validation, filtering,
chunking and merging) is captured exactly as written in the source.
-/

/-- Text is modelled as a list of characters. -/
abbrev Str := List Char

/-- Python `str.isspace` elements relevant to `str.strip` (ASCII whitespace,
matching CPython for the character sets occurring in this development). -/
def isPySpace (c : Char) : Bool :=
  c == ' ' || c == '\t' || c == '\n' || c == '\r' || c == '\x0b' || c == '\x0c'

/-- Python `s.strip()`: drop leading and trailing whitespace. -/
def pyStrip (s : Str) : Str :=
  ((s.dropWhile isPySpace).reverse.dropWhile isPySpace).reverse

/-- First index at which `sub` occurs in `hay` (the index set scanned is
`0 .. hay.length`, which is exhaustive). `none` when there is no occurrence.
This is Python `hay.find(sub)` restricted to the found/not-found outcome. -/
def strFind (hay sub : Str) : Option Nat :=
  (List.range (hay.length + 1)).find? (fun i => sub.isPrefixOf (hay.drop i))

/-- Python `hay.find(sub)`: index of the first occurrence, `-1` if absent. -/
def pyFind (hay sub : Str) : Int :=
  match strFind hay sub with
  | some i => (i : Int)
  | none => -1

/-- Python `sub in hay` for strings. -/
def containsSub (hay sub : Str) : Bool :=
  (strFind hay sub).isSome

/-- Python slice `s[a:b]` for natural indices (Python clamps out-of-range
bounds exactly as `drop`/`take` do). -/
def pySliceNat (s : Str) (a b : Nat) : Str :=
  (s.drop a).take (b - a)

/-- Python slice `s[a:b]`; only used in this development with `0 ≤ a ≤ b`,
where it agrees with CPython. -/
def pySlice (s : Str) (a b : Int) : Str :=
  pySliceNat s a.toNat b.toNat

/-- Python `s[-k:]` for `1 ≤ k ≤ len s`: the last `k` characters. -/
def takeLastN (s : Str) (k : Nat) : Str :=
  s.drop (s.length - k)

/-- Python `s.lower()` (ASCII case folding; all interest tags and challenge
signatures compared in the sources are ASCII). -/
def toLowerStr (s : Str) : Str :=
  s.map Char.toLower

/-- Whitespace-normalized content of a text: its maximal whitespace-free
tokens, in order. -/
def wsTokens (s : Str) : List Str :=
  (s.splitOnP isPySpace).filter (fun t => !t.isEmpty)

/-- Candidate overlap lengths of `merge`: Python `range(start, 10, -5)`,
i.e. `start, start - 5, …` while greater than `10` (closed form:
`(start - 10 + 4) / 5` terms). -/
def downBy5 (start : Nat) : List Nat :=
  (List.range ((start - 10 + 4) / 5)).map (fun i => start - 5 * i)

/- ------------------------------------------------------------------
Text chunker / merger  (`llm_service.py`, `_split_into_chunks`,
`_merge_translations`).
------------------------------------------------------------------ -/

/-- Source constant `llm_service.CHUNK_SIZE`. -/
def CHUNK_SIZE : Nat := 3000

/-- Source constant `llm_service.CHUNK_OVERLAP`. -/
def CHUNK_OVERLAP : Nat := 200

/-- The sentence-ending characters of `_split_into_chunks`. -/
def sentenceEnders : List Char := ['.', '!', '?', '。', '！', '？']

/-- The characters accepted after a sentence ender. -/
def afterEnder : List Char := [' ', '\n', '\t']

/-- One position of the backward boundary scan: Python
`text[i] in ".!?。！？" and text[i+1] in " \n\t"` or `text[i] == "\n"`
(the `i + 1 < len(text)` guard always holds where the scan runs, because
`end_pos < len(text)` there and `i ≤ end_pos - 1`). -/
def isBoundaryPair (c1 c2 : Char) : Bool :=
  (sentenceEnders.contains c1 && afterEnder.contains c2) || c1 == '\n'

/-- The backward boundary scan of `_split_into_chunks`: Python
`for i in range(end_pos - 1, max(current_pos + CHUNK_SIZE // 2, current_pos), -1)`,
returning `some (i + 1)` for the largest qualifying `i`, else `none`.
The loop is realised by pairing each scanned character with its successor
and searching the reversed pair list (index `j` of the reversed list is
index `i = endPos - 1 - j` of the text). Only called with
`endPos < text.length`. -/
def findSentenceEnd (text : Str) (currentPos endPos : Nat) : Option Nat :=
  let stop := max (currentPos + CHUNK_SIZE / 2) currentPos
  let lo := stop + 1
  let len1 := endPos - lo
  let w1 := (text.drop lo).take len1
  let w2 := (text.drop (lo + 1)).take len1
  ((w1.zip w2).reverse.findIdx? (fun p => isBoundaryPair p.1 p.2)).map
    (fun j => endPos - j)

/-- The `end_pos` computation of one iteration of `_split_into_chunks`:
`end_pos = min(current_pos + CHUNK_SIZE, len(text))`, adjusted to the
sentence boundary when one is found (the source guard
`if sentence_end > current_pos` is kept although the scan only ever
returns larger positions). -/
def chunkEndPos (text : Str) (currentPos : Nat) : Nat :=
  let endPos0 := min (currentPos + CHUNK_SIZE) text.length
  if endPos0 < text.length then
    match findSentenceEnd text currentPos endPos0 with
    | some se => if currentPos < se then se else endPos0
    | none => endPos0
  else endPos0

/-- The `while current_pos < len(text)` loop of `_split_into_chunks`.
`fuel` bounds the iteration count; every iteration strictly advances
`current_pos`, so the fuel `text.length + 1` supplied below is never
exhausted. Note the faithful translation of the source line
`current_pos = max(end_pos - CHUNK_OVERLAP, end_pos)`: over the integers
(as in Python) the maximum is always `end_pos`, and the Nat subtraction
here changes nothing because of the outer `max`. -/
def splitLoop (text : Str) : Nat → Nat → List Str
  | 0, _ => []
  | fuel + 1, currentPos =>
    if currentPos < text.length then
      let endPos := chunkEndPos text currentPos
      let chunk := pyStrip (pySliceNat text currentPos endPos)
      let nextPos := max (endPos - CHUNK_OVERLAP) endPos
      let rest := splitLoop text fuel nextPos
      if chunk.isEmpty then rest else chunk :: rest
    else []

/-- Source function `llm_service._split_into_chunks`. -/
def _split_into_chunks (text : Str) : List Str :=
  if text.length ≤ CHUNK_SIZE then [text]
  else splitLoop text (text.length + 1) 0

/-- The body of the merge loop of `_merge_translations` for one adjacent
pair: Python `for overlap_len in range(min(100, len(merged), len(current)), 10, -5)`
splicing at the first matching overlap, else joining with `"\n\n"`. -/
def mergeStep (merged current : Str) : Str :=
  match (downBy5 (min 100 (min merged.length current.length))).find?
      (fun k => takeLastN merged k == current.take k) with
  | some k => merged ++ current.drop k
  | none => merged ++ '\n' :: '\n' :: current

/-- Source function `llm_service._merge_translations`. The Python function indexes
`translations[0]` and is only ever called on non-empty lists; the `[]`
case is given the junk value `[]`. -/
def _merge_translations : List Str → Str
  | [] => []
  | t :: rest => rest.foldl mergeStep t

/-- The spec's "whitespace-normalized content is a superset" relation,
stated from the spec's words for comparison with the code: every
whitespace-delimited token of `t` appears among the tokens of `res`. -/
def contentSupersetSpec (res t : Str) : Prop :=
  ∀ tok ∈ wsTokens t, tok ∈ wsTokens res

/- ------------------------------------------------------------------
Highlight extraction (`llm_service._extract_highlights`): the pure
post-processing of the model's parsed JSON array. Each array element is
either not a dict (skipped) or a dict with optional `type`/`reason` and a
`text` field (skipped when empty). The LLM call and JSON parsing are the
oracle producing the `List PyItem`.
------------------------------------------------------------------ -/

/-- One element of the parsed highlight JSON array. -/
inductive PyItem where
  | notDict
  | dict (ty : Option Str) (text : Str) (reason : Option Str)
deriving DecidableEq

/-- A produced highlight dict. The Python key `end` is called `stop` here
(`end` is a Lean keyword). -/
structure Highlight where
  ty : Str
  text : Str
  start : Int
  stop : Int
  reason : Option Str
deriving DecidableEq

/-- Items that survive the `isinstance(item, dict)` and
`if not highlight_text: continue` guards. -/
def isValidItem : PyItem → Bool
  | .notDict => false
  | .dict _ t _ => !t.isEmpty

/-- Source function `llm_service._extract_highlights`, lines 910–933: offset computation
against the target `text` for every parsed item. -/
def _extract_highlights (text : Str) (items : List PyItem) : List Highlight :=
  items.filterMap fun it =>
    match it with
    | .notDict => none
    | .dict ty htext reason =>
      if htext.isEmpty then none
      else
        let start0 := pyFind text htext
        let start := if start0 = -1 then pyFind text (htext.take 50) else start0
        let stop : Int := if start ≠ -1 then start + htext.length else -1
        some { ty := ty.getD ['f', 'a', 'c', 't'], text := htext,
               start := start, stop := stop, reason := reason }

/-- The function's return value: Python `highlights if highlights else None`. -/
def _extract_highlights_ret (text : Str) (items : List PyItem) : Option (List Highlight) :=
  let hs := _extract_highlights text items
  if hs.isEmpty then none else some hs

/- ------------------------------------------------------------------
Interest filtering (`llm_service.extract_context_and_interests` lines
233–240 and `llm_service.match_interests` lines 368–380). Tags are
`Str`; the model's raw output is the oracle.
------------------------------------------------------------------ -/

/-- One element of the model's raw `interests` array: Python filters with
`isinstance(interest, str)`. -/
inductive PyStrItem where
  | str (s : Str)
  | nonStr
deriving DecidableEq

/-- Lookup in the Python dict `{i.lower(): i for i in user_interests}`:
for duplicate lowered keys the later element overwrites the earlier one,
so the lookup finds the last matching element. `some` iff the key is in
the dict, returning the stored original-case tag. -/
def dictLookupLower (user_interests : List Str) (key : Str) : Option Str :=
  user_interests.reverse.find? (fun i => toLowerStr i == key)

/-- The filtering loop of `extract_context_and_interests` (combined path):
`interest.strip().lower()` looked up in the dict, appending the dict's
value on a hit. -/
def filterMatchedInterests (user_interests : List Str) (raw_interests : List PyStrItem) :
    List Str :=
  raw_interests.filterMap fun it =>
    match it with
    | .nonStr => none
    | .str s => dictLookupLower user_interests (toLowerStr (pyStrip s))

/-- Source function `match_interests` (two-call fallback path) after the raw model output
`raw = response.output_text.strip()`: the "없음" guard, the split on
commas with per-candidate strip, and the same dict filtering. -/
def match_interests_filter (user_interests : List Str) (raw : Str) : List Str :=
  let r := pyStrip raw
  if r.isEmpty ||
      ["없음".toList, "none".toList, "없습니다".toList, "해당 없음".toList].contains
        (toLowerStr r) then []
  else
    ((r.splitOn ',').map pyStrip).filterMap
      (fun c => dictLookupLower user_interests (toLowerStr c))

/- ------------------------------------------------------------------
Korean ratio validation (` _get_korean_ratio` of `llm_service`,
`_validate_translation_result`).
------------------------------------------------------------------ -/

/-- Test for `unicodedata.category(c)` starting with `P` or `S`, restricted to the
ASCII range (faithful for every input considered in this development:
the ASCII P/S characters are exactly the printable non-alphanumeric,
non-space ones). -/
def isPunctOrSymbolASCII (c : Char) : Bool :=
  (0x21 ≤ c.toNat && c.toNat ≤ 0x2F) || (0x3A ≤ c.toNat && c.toNat ≤ 0x40) ||
  (0x5B ≤ c.toNat && c.toNat ≤ 0x60) || (0x7B ≤ c.toNat && c.toNat ≤ 0x7E)

/-- The Hangul ranges checked by ` _get_korean_ratio`:
`"가" <= c <= "힣"` or `"ᄀ" <= c <= "ᇿ"`. -/
def isKoreanChar (c : Char) : Bool :=
  (0xAC00 ≤ c.toNat && c.toNat ≤ 0xD7A3) || (0x1100 ≤ c.toNat && c.toNat ≤ 0x11FF)

/-- The counting loop of ` _get_korean_ratio`: `(korean_count, total_count)`
after skipping whitespace, digits and punctuation/symbols. -/
def koreanCounts (text : Str) : Nat × Nat :=
  text.foldl
    (fun acc c =>
      if isPySpace c || c.isDigit then acc
      else if isPunctOrSymbolASCII c then acc
      else (acc.1 + (if isKoreanChar c then 1 else 0), acc.2 + 1))
    (0, 0)

/-- Comparison ` korean_ratio < 0.5` where ` korean_ratio` is `k / t if t > 0 else 0.0`:
exactly `t = 0 ∨ 2 * k < t` over the rationals (the counts in scope are
small enough that the float comparison agrees with the rational one). -/
def koreanRatioLtHalf (k t : Nat) : Bool :=
  t == 0 || 2 * k < t

/-- Source function `llm_service._validate_translation_result` (the length-warning branch
only logs and passes, so it does not appear in the returned pair). -/
def _validate_translation_result (source_language : Str) (translation : Option Str)
    (_original_text : Str) : Bool × Str :=
  if source_language == "ko".toList then (true, "한국어 원문".toList)
  else
    match translation with
    | none => (false, "번역 결과 없음".toList)
    | some tr =>
      if tr.isEmpty then (false, "번역 결과 없음".toList)
      else if koreanRatioLtHalf (koreanCounts tr).1 (koreanCounts tr).2 then
        (false, "한국어 비율 부족".toList)
      else (true, "검증 통과".toList)

/- ------------------------------------------------------------------
`llm_service.translate_and_highlight`: the orchestration around the
oracles (language detection, per-chunk translation/cleanup, highlight
JSON). `translateCalls` counts the `_translate_chunk` invocations,
`validationFailed` records whether the step-4 validation failed (the
source only logs a warning in that case and continues unchanged).
------------------------------------------------------------------ -/

/-- The LLM calls of `translate_and_highlight`, as oracles. -/
structure LLMOracle where
  detect : Str → Option Str
  translateChunk : Nat → Str → Option Str
  formatChunk : Nat → Str → Option Str
  highlightItems : Str → List PyItem

/-- Result record of `translate_and_highlight` plus the two observations
used by the claims. -/
structure TAHResult where
  language : Option Str
  translation : Option Str
  is_summary : Bool
  highlights : Option (List Highlight)
  translateCalls : Nat
  validationFailed : Bool

/-- Source function `llm_service._format_text` (Korean-original cleanup pass): per-chunk
formatting with fallback to the raw chunk, then the same merge. -/
def _format_text (o : LLMOracle) (text : Str) : Option Str :=
  if CHUNK_SIZE < text.length then
    let chunks := _split_into_chunks text
    let formatted := chunks.mapIdx (fun i c => (o.formatChunk i c).getD c)
    if formatted.isEmpty then none else some (_merge_translations formatted)
  else o.formatChunk 0 text

/-- Source function `llm_service.translate_and_highlight` for a configured client. The
`max_retries` parameter of the source is accepted and documented there as
the retry count on validation failure but is never read by the body;
accordingly it does not occur here. -/
def translate_and_highlight (o : LLMOracle) (text : Str) : TAHResult :=
  if (pyStrip text).length < 20 then
    ⟨none, none, false, none, 0, false⟩
  else
    let language := o.detect (text.take 500)
    if language == some "ko".toList then
      let formatted := _format_text o text
      let target := formatted.getD text
      ⟨language, formatted, false, _extract_highlights_ret target (o.highlightItems target),
        0, false⟩
    else
      let chunks := _split_into_chunks text
      let translations := chunks.mapIdx (fun i c => (o.translateChunk i c).getD c)
      let full := if translations.isEmpty then none else some (_merge_translations translations)
      let vfail :=
        match full with
        | some ft =>
          !(_validate_translation_result (language.getD "unknown".toList) (some ft) text).1
        | none => false
      let target := full.getD text
      ⟨language, full, false, _extract_highlights_ret target (o.highlightItems target),
        chunks.length, vfail⟩

/- ------------------------------------------------------------------
`AnalysisService.run_analysis` and the context-extraction step
(`analysis_service.py`). The per-attempt pipeline `_do_analysis` is
modelled as an `Except String Unit` (the raised exception's `str(e)`),
and the retry loop with its `retry_delays = [1, 3, 5]` is translated
directly. The SSE completion notifications are recorded in
`completeEvents`; the progress notifications are not needed by any claim.
------------------------------------------------------------------ -/

/-- A Python value as far as the unpacking claims need it. -/
inductive PyVal where
  | none
  | str (s : Str)
  | strList (xs : List Str)
deriving DecidableEq

/-- View of an `Optional[str]` as a `PyVal`. -/
def optToVal : Option Str → PyVal
  | Option.none => .none
  | some s => .str s

/-- The control-flow paths of `llm_service.extract_context_and_interests`:
missing client, no user interests (delegating to
`_extract_context_and_summary`), combined-call success, JSON-decode
fallback (via `extract_context` and `match_interests`), and a raised
`LLMError`. Which path runs is decided by the environment (the oracle). -/
inductive LLMPathOutcome where
  | noClient
  | noInterests (ctx summary : Option Str)
  | combined (ctx : Option Str) (ints : List Str) (summary : Option Str)
  | jsonFallback (ctx : Option Str) (ints : List Str)
  | raised (msg : String)

/-- The value `llm_service.extract_context_and_interests` produces on each
path, as the tuple it returns (a Python tuple of 3 components, modelled
as the list of its components) or the exception it raises. -/
def extract_context_and_interests_tuple : LLMPathOutcome → Except String (List PyVal)
  | .noClient => .ok [.none, .strList [], .none]
  | .noInterests c s => .ok [optToVal c, .strList [], optToVal s]
  | .combined c i s => .ok [optToVal c, .strList i, optToVal s]
  | .jsonFallback c i => .ok [optToVal c, .strList i, .none]
  | .raised m => .error m

/-- Python tuple unpacking `a, b = t`: succeeds exactly on a 2-tuple,
otherwise raises `ValueError`. -/
def unpack2 : List PyVal → Except String (PyVal × PyVal)
  | [a, b] => .ok (a, b)
  | l => .error (if 2 < l.length then "too many values to unpack (expected 2)"
                 else "not enough values to unpack (expected 2)")

/-- The call site `context, interests = await llm_service.extract_context_and_interests(...)`
in `AnalysisService._extract_context_and_interests` (line 321). -/
def _extract_context_and_interests_step (o : LLMPathOutcome) :
    Except String (PyVal × PyVal) :=
  (extract_context_and_interests_tuple o).bind unpack2

/-- Source method `AnalysisService._do_analysis` for one attempt: step 1
(`_fetch_external_content`) catches all scraper failures internally and
returns normally, step 2 is the context-extraction call site above, and
the remaining steps are abstracted by `rest` (they are unreachable when
step 2 raises). -/
def _do_analysis (o : LLMPathOutcome) (rest : Except String Unit) : Except String Unit :=
  (_extract_context_and_interests_step o).bind fun _ => rest

/-- The memo fields and notifications written by `run_analysis`. -/
structure RunOutcome where
  analysis_status : String
  analysis_error : Option String
  sleeps : List Nat
  completeEvents : List (String × Option String)
deriving DecidableEq

/-- Retry intervals of `analysis_service` (`retry_delays = [1, 3, 5]`). -/
def retry_delays : List Nat := [1, 3, 5]

/-- The `for attempt in range(retry_count)` loop of
`AnalysisService.run_analysis`, structurally recursing on the number of
remaining iterations (`a` is the current attempt index; the `getD`
default is never used, since the sleep sites have `a < 2`). Before the
loop the memo is set to status `analyzing` with the error cleared, which
is the state reported when the loop runs zero iterations. -/
def runLoop (attempts : Nat → Except String Unit) (a : Nat) : Nat → RunOutcome
  | 0 => ⟨"analyzing", Option.none, [], []⟩
  | remaining + 1 =>
    match attempts a with
    | .ok _ => ⟨"completed", Option.none, [], [("completed", Option.none)]⟩
    | .error e =>
      if remaining = 0 then ⟨"failed", some e, [], [("failed", some e)]⟩
      else
        ⟨(runLoop attempts (a + 1) remaining).analysis_status,
         (runLoop attempts (a + 1) remaining).analysis_error,
         retry_delays.getD a 0 :: (runLoop attempts (a + 1) remaining).sleeps,
         (runLoop attempts (a + 1) remaining).completeEvents⟩

/-- Source method `AnalysisService.run_analysis` with its default `retry_count = 3`,
over the attempt outcomes. -/
def run_analysis (attempts : Nat → Except String Unit) : RunOutcome :=
  runLoop attempts 0 3

/- ------------------------------------------------------------------
`temp_memos.reanalyze_memo` (the guarded state reset; the subsequent
background scheduling does not touch the returned memo state).
------------------------------------------------------------------ -/

/-- The memo fields read and written by the reanalyze endpoint. -/
structure MemoRecord where
  analysis_status : String
  analysis_error : Option String
deriving DecidableEq

/-- Source endpoint `temp_memos.reanalyze_memo`: rejected with HTTP 400 while already
`analyzing` unless `force`, otherwise the status is reset to `pending`
and the error cleared before the background task is scheduled. -/
def reanalyze_memo (memo : MemoRecord) (force : Bool) : Except Nat MemoRecord :=
  if !force && memo.analysis_status == "analyzing" then .error 400
  else .ok { analysis_status := "pending", analysis_error := Option.none }

/- ------------------------------------------------------------------
`TwitterScraper.scrape` (the social-post fetcher used directly by
`AnalysisService._fetch_external_content`) and the truncation tails of
the other fetchers. Only the `content`/`success` data flow is tracked;
og metadata does not matter to any claim here.
------------------------------------------------------------------ -/

/-- The fields of a `TwitterScrapingResult` that decide `scrape`'s control
flow and its returned content. -/
structure ScrapeRes where
  success : Bool
  content : Str
  article_url : Option Str
  screen_name : Option Str
  tweet_id : Option Str
deriving DecidableEq

/-- Outcomes of the individual strategies invoked by `scrape`, as oracles:
`fx` for `_scrape_via_fxtwitter`, `synd` for `_scrape_via_syndication`,
`oembed` for `_scrape_via_oembed`, `articleRes` for the `_scrape_internal`
call on the article / canonical tweet URL, and `playwrightRes` for the
final `_scrape_internal` fallback. -/
structure TwitterOracle where
  fx : ScrapeRes
  synd : ScrapeRes
  oembed : ScrapeRes
  articleRes : ScrapeRes
  playwrightRes : ScrapeRes

/-- The "this page is not supported" markers checked on article content. -/
def unsupportedKo : Str := "이 페이지는 지원되지 않습니다".toList

/-- English variant of the marker. -/
def unsupportedEn : Str := "This page is not supported".toList

/-- Source method `TwitterScraper.scrape` (lines 122–186): FxTwitter first, then
Syndication, then oEmbed, then the Playwright fallback; on an article
URL the article scrape replaces the API result unless unsupported.
No path of this function truncates `content`. -/
def twitter_scrape (o : TwitterOracle) : ScrapeRes :=
  let r := o.fx
  if r.success && !r.content.isEmpty then
    match r.article_url with
    | some _ =>
      let ar := o.articleRes
      if ar.success && !ar.content.isEmpty then
        if containsSub ar.content unsupportedKo || containsSub ar.content unsupportedEn then r
        else ar
      else r
    | Option.none => r
  else
    let s := o.synd
    if s.success && !s.content.isEmpty then
      if s.article_url.isSome && s.screen_name.isSome && s.tweet_id.isSome then
        let ar := o.articleRes
        if ar.success && !ar.content.isEmpty then
          if containsSub ar.content unsupportedKo || containsSub ar.content unsupportedEn then s
          else ar
        else s
      else s
    else
      let e := o.oembed
      if e.success && !e.content.isEmpty then e
      else o.playwrightRes

/-- The Twitter branch of `AnalysisService._fetch_external_content`
(lines 202–224): on success the scraped content is stored unchanged. -/
def fetch_external_content_twitter (o : TwitterOracle) : Option Str :=
  let result := twitter_scrape o
  if result.success then some result.content else Option.none

/-- The shared truncation tail
`if content and len(content) > max_length: content = content[:max_length] + "..."`
of `url_fetcher._fetch_html_content`, `_fetch_raw_text` and
`_fetch_twitter_content` (default `max_length = 10000`). -/
def truncateContent (content : Str) (max_length : Nat) : Str :=
  if max_length < content.length then content.take max_length ++ ['.', '.', '.']
  else content

/-- The transcript cut of `YouTubeScraper._get_transcript`:
`if len(full_text) > 10000: full_text = full_text[:10000] + "..."`. -/
def ytTruncate (full_text : Str) : Str :=
  if 10000 < full_text.length then full_text.take 10000 ++ ['.', '.', '.']
  else full_text

/- ------------------------------------------------------------------
`url_fetcher.fetch_with_cloudflare_bypass` and the Cloudflare branch of
`_fetch_html_content`. Page states, the sampled backoffs, and session
exceptions are oracles; the retry / polling skeleton is translated
directly.
------------------------------------------------------------------ -/

/-- Source constant `url_fetcher.CLOUDFLARE_PATTERNS`. -/
def CLOUDFLARE_PATTERNS : List Str :=
  ["cloudflare".toList, "cf-browser-verification".toList, "cf_chl_opt".toList,
   "checking your browser".toList, "please wait".toList, "ray id".toList,
   "security check".toList, "attention required".toList, "just a moment".toList]

/-- Source function `url_fetcher.is_cloudflare_blocked`. -/
def is_cloudflare_blocked (html : Str) (status_code : Nat) : Bool :=
  if status_code == 403 then
    CLOUDFLARE_PATTERNS.any (fun p => containsSub (toLowerStr html) p)
  else false

/-- The page state observed by one polling round of the bypass:
`html`/`title` from the first `page.content()`/`page.title()` read, and
`html2` from the re-read performed after the success delay. -/
structure RoundState where
  html : Str
  title : Str
  html2 : Str
deriving DecidableEq

/-- One browser session of the bypass, as an oracle: either an exception
somewhere in the session (caught by the outer `except`, moving on to the
next attempt) or the sequence of polled page states together with the
final `page.content()` read after the loop. -/
inductive AttemptOracle where
  | sessionError (msg : String)
  | session (rounds : List RoundState) (finalHtml : Str)

/-- The success test of one polling round:
`not is_cloudflare_blocked(html, 403)` and the title contains neither
"just a moment" nor "cloudflare". -/
def roundPass (r : RoundState) : Bool :=
  !(is_cloudflare_blocked r.html 403) &&
  !(containsSub (toLowerStr r.title) "just a moment".toList) &&
  !(containsSub (toLowerStr r.title) "cloudflare".toList)

/-- One attempt of the bypass: the `for wait_round in range(5)` poll loop
(at most the first 5 oracle states are examined), then the final
best-effort check `html and len(html) > 1000 and not blocked`. -/
def runBypassAttemptRes : AttemptOracle → Option Str
  | .sessionError _ => Option.none
  | .session rounds finalHtml =>
    match (rounds.take 5).find? roundPass with
    | some r => some r.html2
    | Option.none =>
      if 1000 < finalHtml.length && !(is_cloudflare_blocked finalHtml 403) then
        some finalHtml
      else Option.none

/-- Number of polling rounds executed by one attempt: the index of the
first passing round plus one, else every provided round (the source
provides exactly 5). -/
def pollsPerformed : AttemptOracle → Nat
  | .sessionError _ => 0
  | .session rounds _ =>
    match (rounds.take 5).findIdx? roundPass with
    | some j => j + 1
    | Option.none => min rounds.length 5

/-- The observable outcome of `fetch_with_cloudflare_bypass`: the returned
`(html, success)` pair, the backoff sleeps performed between attempts,
the detail text of the final `cloudflare_failed` notification (present
only when every attempt failed), and the number of attempts started. -/
structure BypassRun where
  html : Option Str
  success : Bool
  sleeps : List ℚ
  finalNotice : Option String
  attemptsUsed : Nat
deriving DecidableEq

/-- The `for attempt in range(max_retries)` loop of
`fetch_with_cloudflare_bypass`: `a` is the current attempt index, the
second `Nat` the remaining iteration count, `delays a` the value sampled
by `random.uniform(2.0, 5.0)` before attempt `a + 1`. On falling out of
the loop the final `cloudflare_failed` notification is emitted and
`(None, False)` returned. -/
def bypassLoop (attempts : Nat → AttemptOracle) (delays : Nat → ℚ) (maxRetries : Nat)
    (a : Nat) : Nat → BypassRun
  | 0 => ⟨Option.none, false, [],
      some (toString maxRetries ++ "회 시도 후 포기. 내용을 직접 복사해주세요."), 0⟩
  | remaining + 1 =>
    match runBypassAttemptRes (attempts a) with
    | some h => ⟨some h, true, [], Option.none, 1⟩
    | Option.none =>
      if remaining = 0 then
        ⟨Option.none, false, [],
          some (toString maxRetries ++ "회 시도 후 포기. 내용을 직접 복사해주세요."), 1⟩
      else
        ⟨(bypassLoop attempts delays maxRetries (a + 1) remaining).html,
         (bypassLoop attempts delays maxRetries (a + 1) remaining).success,
         delays a :: (bypassLoop attempts delays maxRetries (a + 1) remaining).sleeps,
         (bypassLoop attempts delays maxRetries (a + 1) remaining).finalNotice,
         (bypassLoop attempts delays maxRetries (a + 1) remaining).attemptsUsed + 1⟩

/-- Source function `url_fetcher.fetch_with_cloudflare_bypass` with its caller-supplied
`max_retries = 3`. -/
def fetch_with_cloudflare_bypass (attempts : Nat → AttemptOracle) (delays : Nat → ℚ) :
    BypassRun :=
  bypassLoop attempts delays 3 0 3

/-- The terminal-failure message of the Cloudflare branch of
`url_fetcher._fetch_html_content`. -/
def cloudflareFailMessage : String :=
  "Cloudflare 보안으로 인해 콘텐츠를 가져올 수 없습니다. 기사 내용을 직접 복사해서 메모에 붙여넣어 주세요."

/-- The branch of `url_fetcher._fetch_html_content` entered when
`is_cloudflare_blocked(html, status_code)` holds on the initial response
(lines 614–641): one call to the bypass; on bypass failure it returns
`(None, OGMetadata(fetch_failed=True, fetch_message=…))` at once — no
further retry. Returns `(content to continue with, failure message)`. -/
def fetchHtmlAfterCloudflareDetected (bypass : BypassRun) : Option Str × Option String :=
  match bypass.html, bypass.success with
  | some h, true => (some h, Option.none)
  | _, _ => (Option.none, some cloudflareFailMessage)

/- ------------------------------------------------------------------
Concrete inputs used by counterexamples and witnesses.
------------------------------------------------------------------ -/

/-- Membership of every token is decidable, so the superset relation is. -/
instance (res t : Str) : Decidable (contentSupersetSpec res t) := by
  unfold contentSupersetSpec
  infer_instance

/-- Target text for the highlight counterexample: 50 copies of `a`. -/
def c2Text : Str := List.replicate 50 'a'

/-- Model output for the highlight counterexample: one 51-`a` highlight
(its 50-character prefix occurs in `c2Text`, the full string does not)
and one unmatched highlight. -/
def c2Items : List PyItem :=
  [PyItem.dict Option.none (List.replicate 51 'a') Option.none,
   PyItem.dict Option.none ['z', 'z', 'z'] Option.none]

/-- Oracle for the validation-retry claim: the detector reports `en`, and
the model's "translation" of the all-`e` source text is 30 copies of `f`
(not a single Hangul character, so the Korean ratio validation fails). -/
def c5Oracle : LLMOracle where
  detect := fun _ => some "en".toList
  translateChunk := fun _ _ => some (List.replicate 30 'f')
  formatChunk := fun _ c => some c
  highlightItems := fun _ => []

/-- The all-`e` source text of the validation-retry claim. -/
def c5Text : Str := List.replicate 30 'e'

/-- Oracle for the truncation claim: the FxTwitter API succeeds with a
20001-character post (a long-form note tweet) and no article URL. -/
def c7Oracle : TwitterOracle where
  fx := ⟨true, List.replicate 20001 'a', Option.none, Option.none, Option.none⟩
  synd := ⟨false, [], Option.none, Option.none, Option.none⟩
  oembed := ⟨false, [], Option.none, Option.none, Option.none⟩
  articleRes := ⟨false, [], Option.none, Option.none, Option.none⟩
  playwrightRes := ⟨false, [], Option.none, Option.none, Option.none⟩

theorem dropWhile_of_all_false (p : Char → Bool) (l : Str) (h : ∀ c ∈ l, p c = false) :
    l.dropWhile p = l := by
  induction l with
  | nil => rfl
  | cons a t ih =>
    rw [List.dropWhile_cons]
    simp [h a (by simp)]

theorem pyStrip_of_no_space (l : Str) (h : ∀ c ∈ l, isPySpace c = false) :
    pyStrip l = l := by
  unfold pyStrip
  rw [dropWhile_of_all_false _ _ h,
      dropWhile_of_all_false _ _ (fun c hc => h c (List.mem_reverse.mp hc)),
      List.reverse_reverse]

theorem findSentenceEnd_of_no_boundary (text : Str) (cp ep : Nat)
    (h : ∀ c ∈ text, sentenceEnders.contains c = false ∧ (c == '\n') = false) :
    findSentenceEnd text cp ep = none := by
  simp only [findSentenceEnd]
  rw [Option.map_eq_none']
  apply List.findIdx?_eq_none_iff.mpr
  intro q hq
  obtain ⟨a, b⟩ := q
  rw [List.mem_reverse] at hq
  have ha : a ∈ text :=
    List.mem_of_mem_drop (List.mem_of_mem_take (List.of_mem_zip hq).1)
  obtain ⟨h1, h2⟩ := h a ha
  have hb : isBoundaryPair a b = false := by
    unfold isBoundaryPair
    rw [h1, h2]
    rfl
  simp [hb]

theorem splitLoop_stop (text : Str) (fuel cp : Nat) (h : ¬ cp < text.length) :
    splitLoop text fuel cp = [] := by
  cases fuel with
  | zero => rfl
  | succ n => simp [splitLoop, h]

/-- One unfolding of the split loop at a position with a non-empty chunk. -/
theorem splitLoop_cons (text : Str) (fuel cp : Nat) (h : cp < text.length)
    (hne : (pyStrip (pySliceNat text cp (chunkEndPos text cp))).isEmpty = false) :
    splitLoop text (fuel + 1) cp =
      pyStrip (pySliceNat text cp (chunkEndPos text cp)) ::
        splitLoop text fuel
          (max (chunkEndPos text cp - CHUNK_OVERLAP) (chunkEndPos text cp)) := by
  show (if cp < text.length then
      (if (pyStrip (pySliceNat text cp (chunkEndPos text cp))).isEmpty then
        splitLoop text fuel
          (max (chunkEndPos text cp - CHUNK_OVERLAP) (chunkEndPos text cp))
      else
        pyStrip (pySliceNat text cp (chunkEndPos text cp)) ::
          splitLoop text fuel
            (max (chunkEndPos text cp - CHUNK_OVERLAP) (chunkEndPos text cp)))
    else []) = _
  rw [if_pos h, hne]
  rfl

theorem replicate_3100_length : (List.replicate 3100 'x').length = 3100 :=
  List.length_replicate ..

theorem chunkEndPos_no_boundary (text : Str) (cp : Nat)
    (h : ∀ c ∈ text, sentenceEnders.contains c = false ∧ (c == '\n') = false) :
    chunkEndPos text cp = min (cp + CHUNK_SIZE) text.length := by
  show (if min (cp + CHUNK_SIZE) text.length < text.length then
      match findSentenceEnd text cp (min (cp + CHUNK_SIZE) text.length) with
      | some se => if cp < se then se else min (cp + CHUNK_SIZE) text.length
      | none => min (cp + CHUNK_SIZE) text.length
    else min (cp + CHUNK_SIZE) text.length) = _
  rw [findSentenceEnd_of_no_boundary _ _ _ h]
  simp

theorem split_replicate_3100 :
    _split_into_chunks (List.replicate 3100 'x') =
      [List.replicate 3000 'x', List.replicate 100 'x'] := by
  have hx1 : sentenceEnders.contains 'x' = false := by decide
  have hx2 : (('x' : Char) == '\n') = false := by decide
  have hx3 : isPySpace 'x' = false := by decide
  have hnb : ∀ c ∈ (List.replicate 3100 'x' : Str),
      sentenceEnders.contains c = false ∧ (c == '\n') = false := by
    intro c hc
    rw [List.eq_of_mem_replicate hc]
    exact ⟨hx1, hx2⟩
  have hstrip : ∀ n : Nat, pyStrip (List.replicate n 'x') = List.replicate n 'x' := by
    intro n
    apply pyStrip_of_no_space
    intro c hc
    rw [List.eq_of_mem_replicate hc]
    exact hx3
  have hslice : ∀ a b : Nat, pySliceNat (List.replicate 3100 'x') a b =
      List.replicate (min (b - a) (3100 - a)) 'x' := by
    intro a b
    unfold pySliceNat
    rw [List.drop_replicate, List.take_replicate]
  have hend : ∀ cp : Nat, chunkEndPos (List.replicate 3100 'x') cp = min (cp + 3000) 3100 := by
    intro cp
    rw [chunkEndPos_no_boundary _ _ hnb, replicate_3100_length]
    simp [CHUNK_SIZE]
  have hend0 : chunkEndPos (List.replicate 3100 'x') 0 = 3000 := by
    rw [hend]; norm_num
  have hend3000 : chunkEndPos (List.replicate 3100 'x') 3000 = 3100 := by
    rw [hend]; norm_num
  have hchunk1 : pyStrip (pySliceNat (List.replicate 3100 'x') 0
      (chunkEndPos (List.replicate 3100 'x') 0)) = List.replicate 3000 'x' := by
    rw [hend0, hslice]
    norm_num
    exact hstrip 3000
  have hchunk2 : pyStrip (pySliceNat (List.replicate 3100 'x') 3000
      (chunkEndPos (List.replicate 3100 'x') 3000)) = List.replicate 100 'x' := by
    rw [hend3000, hslice]
    norm_num
    exact hstrip 100
  have hne : ∀ n : Nat, 0 < n → (List.replicate n 'x').isEmpty = false := by
    intro n hn
    cases n with
    | zero => omega
    | succ m => rfl
  have e0 : _split_into_chunks (List.replicate 3100 'x') =
      splitLoop (List.replicate 3100 'x') (3100 + 1) 0 := by
    unfold _split_into_chunks
    rw [replicate_3100_length, if_neg (by norm_num [CHUNK_SIZE])]
  rw [e0, splitLoop_cons _ _ _ (by rw [replicate_3100_length]; norm_num)
        (by rw [hchunk1]; exact hne 3000 (by norm_num))]
  rw [hchunk1, hend0]
  rw [show max (3000 - CHUNK_OVERLAP) 3000 = 3000 from by norm_num [CHUNK_OVERLAP]]
  rw [show (3100 : Nat) = 3099 + 1 from rfl]
  rw [splitLoop_cons _ _ _ (by rw [replicate_3100_length]; norm_num)
        (by rw [hchunk2]; exact hne 100 (by norm_num))]
  rw [hchunk2, hend3000]
  rw [show max (3100 - CHUNK_OVERLAP) 3100 = 3100 from by norm_num [CHUNK_OVERLAP]]
  rw [splitLoop_stop _ _ _ (by rw [replicate_3100_length]; norm_num)]

theorem takeLastN_replicate (n k : Nat) : takeLastN (List.replicate n 'x') k =
    List.replicate (n - (n - k)) 'x' := by
  unfold takeLastN
  rw [List.length_replicate, List.drop_replicate]

theorem merge_pair (a b : Str) : _merge_translations [a, b] = mergeStep a b := rfl

theorem merge_replicate_pair :
    _merge_translations [List.replicate 3000 'x', List.replicate 100 'x'] =
      List.replicate 3000 'x' := by
  rw [merge_pair]
  unfold mergeStep
  rw [List.length_replicate, List.length_replicate]
  rw [show min 100 (min 3000 100) = 100 from by norm_num]
  rw [show downBy5 100 = [100, 95, 90, 85, 80, 75, 70, 65, 60, 55, 50, 45, 40, 35, 30,
        25, 20, 15] from by decide]
  rw [List.find?_cons_of_pos _ (by
    rw [takeLastN_replicate, List.take_replicate]
    norm_num)]
  show List.replicate 3000 'x' ++ (List.replicate 100 'x').drop 100 = _
  rw [List.drop_replicate]
  norm_num

theorem wsTokens_of_no_space (l : Str) (hne : l ≠ []) (h : ∀ c ∈ l, isPySpace c = false) :
    wsTokens l = [l] := by
  have hp : ∀ x ∈ l, ¬ (isPySpace x = true) := fun x hx => by simp [h x hx]
  unfold wsTokens
  rw [List.splitOnP_eq_single isPySpace l hp]
  have : l.isEmpty = false := by
    cases l with
    | nil => exact absurd rfl hne
    | cons a t => rfl
  simp [this]

theorem no_space_replicate (n : Nat) : ∀ c ∈ (List.replicate n 'x' : Str), isPySpace c = false := by
  intro c hc
  rw [List.eq_of_mem_replicate hc]
  decide

theorem repl_ne_nil (n : Nat) (hn : 0 < n) : (List.replicate n 'x' : Str) ≠ [] := by
  cases n with
  | zero => omega
  | succ m => simp

/-- C6 counterexample core: merging the split of 3100 `x`s keeps only 3000
of them, so the token `x^3100` of the input is not among the output's
tokens. -/
theorem merge_split_loses_content :
    ¬ contentSupersetSpec
        (_merge_translations (_split_into_chunks (List.replicate 3100 'x')))
        (List.replicate 3100 'x') := by
  rw [split_replicate_3100, merge_replicate_pair]
  intro hsup
  have htok : wsTokens (List.replicate 3100 'x') = [List.replicate 3100 'x'] :=
    wsTokens_of_no_space _ (repl_ne_nil 3100 (by norm_num)) (no_space_replicate 3100)
  have htok2 : wsTokens (List.replicate 3000 'x') = [List.replicate 3000 'x'] :=
    wsTokens_of_no_space _ (repl_ne_nil 3000 (by norm_num)) (no_space_replicate 3000)
  have hmem := hsup (List.replicate 3100 'x') (by rw [htok]; exact List.mem_singleton_self _)
  rw [htok2, List.mem_singleton] at hmem
  have hlen := congrArg List.length hmem
  rw [List.length_replicate, List.length_replicate] at hlen
  norm_num at hlen

theorem runLoop_succ (attempts : Nat → Except String Unit) (a remaining : Nat) :
    runLoop attempts a (remaining + 1) =
      match attempts a with
      | .ok _ => ⟨"completed", Option.none, [], [("completed", Option.none)]⟩
      | .error e =>
        if remaining = 0 then ⟨"failed", some e, [], [("failed", some e)]⟩
        else
          ⟨(runLoop attempts (a + 1) remaining).analysis_status,
           (runLoop attempts (a + 1) remaining).analysis_error,
           retry_delays.getD a 0 :: (runLoop attempts (a + 1) remaining).sleeps,
           (runLoop attempts (a + 1) remaining).completeEvents⟩ := rfl

/-- When all three attempts raise, `run_analysis` sleeps 1 s then 3 s and
ends `failed` with the last message. -/
theorem runLoop_all_fail (f : Nat → Except String Unit) (m0 m1 m2 : String)
    (h0 : f 0 = .error m0) (h1 : f 1 = .error m1) (h2 : f 2 = .error m2) :
    run_analysis f = ⟨"failed", some m2, [1, 3], [("failed", some m2)]⟩ := by
  have e2 : runLoop f 2 1 = ⟨"failed", some m2, [], [("failed", some m2)]⟩ := by
    rw [show (1 : Nat) = 0 + 1 from rfl, runLoop_succ, h2]
    rfl
  have e1 : runLoop f 1 2 = ⟨"failed", some m2, [3], [("failed", some m2)]⟩ := by
    rw [show (2 : Nat) = 1 + 1 from rfl, runLoop_succ, h1]
    simp [e2, retry_delays]
  show runLoop f 0 (2 + 1) = _
  rw [runLoop_succ, h0]
  simp [e1, retry_delays]

/-- When attempt `k < 3` succeeds after failing earlier attempts, the run
ends `completed` with the error cleared and a completion event. -/
theorem runLoop_success (f : Nat → Except String Unit) (k : Nat) (hk : k < 3)
    (hok : f k = .ok ()) (hprev : ∀ j, j < k → f j ≠ .ok ()) :
    (run_analysis f).analysis_status = "completed" ∧
    (run_analysis f).analysis_error = Option.none ∧
    ("completed", (Option.none : Option String)) ∈ (run_analysis f).completeEvents := by
  have herr : ∀ j, j < k → ∃ m, f j = .error m := by
    intro j hj
    cases hfj : f j with
    | ok u => cases u; exact absurd hfj (hprev j hj)
    | error m => exact ⟨m, rfl⟩
  interval_cases k
  · have : run_analysis f = ⟨"completed", Option.none, [], [("completed", Option.none)]⟩ := by
      show runLoop f 0 (2 + 1) = _
      rw [runLoop_succ, hok]
    rw [this]
    refine ⟨rfl, rfl, by simp⟩
  · obtain ⟨m0, h0⟩ := herr 0 (by norm_num)
    have e1 : runLoop f 1 2 = ⟨"completed", Option.none, [], [("completed", Option.none)]⟩ := by
      rw [show (2 : Nat) = 1 + 1 from rfl, runLoop_succ, hok]
    have : run_analysis f =
        ⟨"completed", Option.none, [1], [("completed", Option.none)]⟩ := by
      show runLoop f 0 (2 + 1) = _
      rw [runLoop_succ, h0]
      simp [e1, retry_delays]
    rw [this]
    refine ⟨rfl, rfl, by simp⟩
  · obtain ⟨m0, h0⟩ := herr 0 (by norm_num)
    obtain ⟨m1, h1⟩ := herr 1 (by norm_num)
    have e2 : runLoop f 2 1 = ⟨"completed", Option.none, [], [("completed", Option.none)]⟩ := by
      rw [show (1 : Nat) = 0 + 1 from rfl, runLoop_succ, hok]
    have e1 : runLoop f 1 2 =
        ⟨"completed", Option.none, [3], [("completed", Option.none)]⟩ := by
      rw [show (2 : Nat) = 1 + 1 from rfl, runLoop_succ, h1]
      simp [e2, retry_delays]
    have : run_analysis f =
        ⟨"completed", Option.none, [1, 3], [("completed", Option.none)]⟩ := by
      show runLoop f 0 (2 + 1) = _
      rw [runLoop_succ, h0]
      simp [e1, retry_delays]
    rw [this]
    refine ⟨rfl, rfl, by simp⟩

theorem tuple_len3 (p : LLMPathOutcome) (t : List PyVal)
    (h : extract_context_and_interests_tuple p = .ok t) : t.length = 3 := by
  cases p <;> simp_all [extract_context_and_interests_tuple] <;> subst h <;> rfl

theorem step_always_errors (p : LLMPathOutcome) :
    ∃ m, _extract_context_and_interests_step p = .error m := by
  cases p with
  | noClient => exact ⟨_, rfl⟩
  | noInterests c s => exact ⟨_, rfl⟩
  | combined c i s => exact ⟨_, rfl⟩
  | jsonFallback c i => exact ⟨_, rfl⟩
  | raised m => exact ⟨m, rfl⟩

theorem step_value_error (p : LLMPathOutcome) (h : ∀ m, p ≠ .raised m) :
    _extract_context_and_interests_step p =
      .error "too many values to unpack (expected 2)" := by
  cases p with
  | noClient => rfl
  | noInterests c s => rfl
  | combined c i s => rfl
  | jsonFallback c i => rfl
  | raised m => exact absurd rfl (h m)

theorem do_analysis_errors (o : LLMPathOutcome) (rest : Except String Unit) :
    ∃ m, _do_analysis o rest = .error m := by
  obtain ⟨m, hm⟩ := step_always_errors o
  refine ⟨m, ?_⟩
  unfold _do_analysis
  rw [hm]
  rfl

theorem mem_of_dictLookup (ui : List Str) (k x : Str) (h : dictLookupLower ui k = some x) :
    x ∈ ui :=
  List.mem_reverse.mp (List.mem_of_find?_eq_some h)

theorem filterMatched_subset (ui : List Str) (raw : List PyStrItem) (x : Str)
    (h : x ∈ filterMatchedInterests ui raw) : x ∈ ui := by
  rw [filterMatchedInterests, List.mem_filterMap] at h
  obtain ⟨it, _, hsome⟩ := h
  cases it with
  | nonStr => simp at hsome
  | str s => exact mem_of_dictLookup _ _ _ hsome

theorem matchFilter_subset (ui : List Str) (raw x : Str)
    (h : x ∈ match_interests_filter ui raw) : x ∈ ui := by
  rw [match_interests_filter] at h
  split at h
  · simp at h
  · rw [List.mem_filterMap] at h
    obtain ⟨c, _, hsome⟩ := h
    exact mem_of_dictLookup _ _ _ hsome

theorem strFind_take (hay sub : Str) (s : Nat) (h : strFind hay sub = some s) :
    (hay.drop s).take sub.length = sub := by
  unfold strFind at h
  have hp0 := List.find?_some h
  have hp : sub.isPrefixOf (hay.drop s) = true := hp0
  rw [ List.isPrefixOf_iff_prefix] at hp
  obtain ⟨t2, ht2⟩ := hp
  rw [← ht2, List.take_left]

theorem length_filterMap_eq_filter {α β : Type} (f : α → Option β) (p : α → Bool)
    (hfp : ∀ a, (f a).isSome = p a) (l : List α) :
    (l.filterMap f).length = (l.filter p).length := by
  induction l with
  | nil => rfl
  | cons a t ih =>
    rw [List.filterMap_cons, List.filter_cons]
    cases hfa : f a with
    | none =>
      have hp : p a = false := by rw [← hfp a, hfa]; rfl
      simp [hp, ih]
    | some b =>
      have hp : p a = true := by rw [← hfp a, hfa]; rfl
      simp [hp, ih]

theorem extract_highlights_length (text : Str) (items : List PyItem) :
    (_extract_highlights text items).length = (items.filter isValidItem).length := by
  apply length_filterMap_eq_filter
  intro a
  cases a with
  | notDict => rfl
  | dict ty tx rs => cases tx <;> rfl

theorem extract_highlights_spec (text : Str) (items : List PyItem) (h : Highlight)
    (hmem : h ∈ _extract_highlights text items) :
    (∀ s : Nat, strFind text h.text = some s →
      h.start = (s : Int) ∧ h.stop = (s : Int) + h.text.length ∧
        pySlice text h.start h.stop = h.text) ∧
    (strFind text h.text = none → strFind text (h.text.take 50) = none →
      h.start = -1 ∧ h.stop = -1) := by
  rw [_extract_highlights, List.mem_filterMap] at hmem
  obtain ⟨it, _, hsome⟩ := hmem
  cases it with
  | notDict => simp at hsome
  | dict ty tx rs =>
    dsimp only at hsome
    by_cases hE : tx = []
    · simp [hE] at hsome
    · rw [if_neg (by simp [hE])] at hsome
      have hrec := Option.some.inj hsome
      subst hrec
      dsimp only
      constructor
      · intro s hs
        have hpf : pyFind text tx = (s : Int) := by unfold pyFind; rw [hs]
        have hne : ((s : Nat) : Int) ≠ -1 := by omega
        rw [hpf, if_neg hne, if_pos hne]
        refine ⟨rfl, rfl, ?_⟩
        unfold pySlice pySliceNat
        rw [show ((s : Nat) : Int).toNat = s from by omega,
            show (((s : Nat) : Int) + (tx.length : Int)).toNat = s + tx.length from by omega,
            Nat.add_sub_cancel_left]
        exact strFind_take text tx s hs
      · intro hn hn50
        have hpf : pyFind text tx = -1 := by unfold pyFind; rw [hn]
        have hpf50 : pyFind text (tx.take 50) = -1 := by unfold pyFind; rw [hn50]
        rw [hpf, if_pos rfl, hpf50, if_neg (by simp)]
        exact ⟨rfl, rfl⟩

theorem findIdx?_lt {α : Type} (p : α → Bool) :
    ∀ (l : List α) (i j : Nat), l.findIdx? p i = some j → j < i + l.length := by
  intro l
  induction l with
  | nil =>
    intro i j h
    rw [List.findIdx?_nil] at h
    cases h
  | cons a t ih =>
    intro i j h
    rw [List.findIdx?_cons] at h
    by_cases hp : p a = true
    · rw [if_pos hp] at h
      cases h
      simp
    · rw [if_neg hp] at h
      have := ih (i + 1) j h
      simp only [List.length_cons]
      omega

theorem pollsPerformed_le (ao : AttemptOracle) : pollsPerformed ao ≤ 5 := by
  cases ao with
  | sessionError m => exact Nat.zero_le 5
  | session rounds finalHtml =>
    show (match (rounds.take 5).findIdx? roundPass with
      | some j => j + 1
      | Option.none => min rounds.length 5) ≤ 5
    cases hf : (rounds.take 5).findIdx? roundPass with
    | some j =>
      show j + 1 ≤ 5
      have := findIdx?_lt roundPass (rounds.take 5) 0 j hf
      rw [List.length_take] at this
      omega
    | none =>
      show min rounds.length 5 ≤ 5
      omega

theorem bypassLoop_succ (f : Nat → AttemptOracle) (d : Nat → ℚ) (mr a remaining : Nat) :
    bypassLoop f d mr a (remaining + 1) =
      match runBypassAttemptRes (f a) with
      | some h => ⟨some h, true, [], Option.none, 1⟩
      | Option.none =>
        if remaining = 0 then
          ⟨Option.none, false, [],
            some (toString mr ++ "회 시도 후 포기. 내용을 직접 복사해주세요."), 1⟩
        else
          ⟨(bypassLoop f d mr (a + 1) remaining).html,
           (bypassLoop f d mr (a + 1) remaining).success,
           d a :: (bypassLoop f d mr (a + 1) remaining).sleeps,
           (bypassLoop f d mr (a + 1) remaining).finalNotice,
           (bypassLoop f d mr (a + 1) remaining).attemptsUsed + 1⟩ := rfl

theorem bypass_attempts_le (f : Nat → AttemptOracle) (d : Nat → ℚ) (mr : Nat) :
    ∀ (n a : Nat), (bypassLoop f d mr a n).attemptsUsed ≤ n := by
  intro n
  induction n with
  | zero => intro a; exact Nat.le_refl 0
  | succ m ih =>
    intro a
    rw [bypassLoop_succ]
    cases hr : runBypassAttemptRes (f a) with
    | some h => simp
    | none =>
      by_cases hm : m = 0
      · simp [hm]
      · rw [if_neg hm]
        have := ih (a + 1)
        simp only []
        omega

theorem bypass_sleeps_range (f : Nat → AttemptOracle) (d : Nat → ℚ) (mr : Nat)
    (hd : ∀ i, 2 ≤ d i ∧ d i ≤ 5) :
    ∀ (n a : Nat), ∀ x ∈ (bypassLoop f d mr a n).sleeps, 2 ≤ x ∧ x ≤ 5 := by
  intro n
  induction n with
  | zero => intro a x hx; simp [bypassLoop] at hx
  | succ m ih =>
    intro a x hx
    rw [bypassLoop_succ] at hx
    cases hr : runBypassAttemptRes (f a) with
    | some h => rw [hr] at hx; simp at hx
    | none =>
      rw [hr] at hx
      by_cases hm : m = 0
      · rw [if_pos hm] at hx; simp at hx
      · rw [if_neg hm] at hx
        simp only [List.mem_cons] at hx
        rcases hx with rfl | hx
        · exact hd a
        · exact ih (a + 1) x hx

theorem bypass_all_fail (f : Nat → AttemptOracle) (d : Nat → ℚ) (mr : Nat)
    (hfail : ∀ a, runBypassAttemptRes (f a) = none) :
    ∀ (n a : Nat), 0 < n →
      (bypassLoop f d mr a n).html = Option.none ∧
      (bypassLoop f d mr a n).success = false ∧
      (bypassLoop f d mr a n).finalNotice =
        some (toString mr ++ "회 시도 후 포기. 내용을 직접 복사해주세요.") := by
  intro n
  induction n with
  | zero => intro a h; omega
  | succ m ih =>
    intro a _
    rw [bypassLoop_succ, hfail a]
    by_cases hm : m = 0
    · rw [if_pos hm]
      exact ⟨rfl, rfl, rfl⟩
    · rw [if_neg hm]
      obtain ⟨h1, h2, h3⟩ := ih (a + 1) (Nat.pos_of_ne_zero hm)
      exact ⟨h1, h2, h3⟩

/-- C1: `llm_service.extract_context_and_interests` returns a 3-tuple on
every returning path, so the 2-variable unpacking at
`analysis_service.py` line 321 raises `ValueError` on every attempt that
reaches it; with the per-attempt pipeline failing on all 3 attempts the
run sleeps 1 s and 3 s and leaves the memo `failed`. -/
theorem C1_analysis_always_fails :
    ∀ (o : Nat → LLMPathOutcome) (rest : Except String Unit),
      (∀ p t, extract_context_and_interests_tuple p = .ok t → t.length = 3) ∧
      (∀ p, (∃ m, p = LLMPathOutcome.raised m) ∨
        _extract_context_and_interests_step p =
          .error "too many values to unpack (expected 2)") ∧
      (run_analysis (fun a => _do_analysis (o a) rest)).analysis_status = "failed" ∧
      (run_analysis (fun a => _do_analysis (o a) rest)).sleeps = [1, 3] := by
  intro o rest
  obtain ⟨m0, h0⟩ := do_analysis_errors (o 0) rest
  obtain ⟨m1, h1⟩ := do_analysis_errors (o 1) rest
  obtain ⟨m2, h2⟩ := do_analysis_errors (o 2) rest
  have hrun := runLoop_all_fail (fun a => _do_analysis (o a) rest) m0 m1 m2 h0 h1 h2
  refine ⟨tuple_len3, ?_, ?_, ?_⟩
  · intro p
    cases p with
    | raised m => exact Or.inl ⟨m, rfl⟩
    | noClient => exact Or.inr rfl
    | noInterests c s => exact Or.inr rfl
    | combined c i s => exact Or.inr rfl
    | jsonFallback c i => exact Or.inr rfl
  · rw [hrun]
  · rw [hrun]

/-- C1 witness: with the no-client path on every attempt the memo ends
`failed`, and the unpacking error is the `ValueError` message. -/
theorem C1_analysis_always_fails_witness :
    (run_analysis
        (fun a => _do_analysis ((fun _ => LLMPathOutcome.noClient) a) (.ok ()))).analysis_status =
      "failed" ∧
    _extract_context_and_interests_step LLMPathOutcome.noClient =
      .error "too many values to unpack (expected 2)" := by
  have h := C1_analysis_always_fails (fun _ => LLMPathOutcome.noClient) (.ok ())
  refine ⟨h.2.2.1, ?_⟩
  rcases h.2.1 LLMPathOutcome.noClient with ⟨m, hm⟩ | hok
  · cases hm
  · exact hok

/-- C4: three failing attempts sleep 1 s then 3 s and end `failed` with the
last exception's message (non-empty whenever the message is); a successful
attempt ends `completed` with the error cleared and a completion event. -/
theorem C4_retry_backoff_and_completion :
    ∀ (f : Nat → Except String Unit) (m0 m1 m2 : String),
      (f 0 = .error m0 → f 1 = .error m1 → f 2 = .error m2 →
        run_analysis f = ⟨"failed", some m2, [1, 3], [("failed", some m2)]⟩ ∧
        (m2 ≠ "" → (run_analysis f).analysis_error ≠ some "")) ∧
      (∀ k, k < 3 → f k = .ok () → (∀ j, j < k → f j ≠ .ok ()) →
        (run_analysis f).analysis_status = "completed" ∧
        (run_analysis f).analysis_error = Option.none ∧
        ("completed", (Option.none : Option String)) ∈ (run_analysis f).completeEvents) := by
  intro f m0 m1 m2
  constructor
  · intro h0 h1 h2
    have hrun := runLoop_all_fail f m0 m1 m2 h0 h1 h2
    refine ⟨hrun, ?_⟩
    intro hne
    rw [hrun]
    show some m2 ≠ some ""
    exact fun hc => hne (Option.some.inj hc)
  · exact fun k hk hok hprev => runLoop_success f k hk hok hprev

/-- C4 witness: all-failing attempts end `failed` with the message and the
1 s / 3 s sleeps; all-succeeding attempts end `completed`. -/
theorem C4_retry_backoff_and_completion_witness :
    run_analysis (fun _ => .error "boom") =
      ⟨"failed", some "boom", [1, 3], [("failed", some "boom")]⟩ ∧
    (run_analysis (fun _ => .ok ())).analysis_status = "completed" := by
  have h1 := (C4_retry_backoff_and_completion (fun _ => .error "boom") "boom" "boom" "boom").1
    rfl rfl rfl
  have h2 := (C4_retry_backoff_and_completion (fun _ => .ok ()) "" "" "").2 0 (by norm_num)
    rfl (fun j hj => by omega)
  exact ⟨h1.1, h2.1⟩

/-- C2 counterexample: on the 50-`a` target with model items `a^51` and
`"zzz"`, the returned list contains a highlight with `start = 0 ≠ -1`
whose slice `T[start:end]` is not its text (the 50-character prefix retry
matched), and also keeps the unmatched `"zzz"` highlight (with
`start = -1`) instead of dropping it. -/
theorem C2_counterexample :
    ¬ ((∀ h ∈ _extract_highlights c2Text c2Items, h.start ≠ -1 →
          pySlice c2Text h.start h.stop = h.text) ∧
       (∀ h ∈ _extract_highlights c2Text c2Items, h.start ≠ -1)) := by
  decide

/-- C2 amended: when the exact match succeeds the offsets delimit exactly
the highlight text; when both the exact and the shortened prefix match
fail the highlight is kept with `start = end = -1` (nothing is dropped:
the output length equals the number of valid items). -/
theorem C2_amended_offsets :
    ∀ (text : Str) (items : List PyItem),
      (_extract_highlights text items).length = (items.filter isValidItem).length ∧
      ∀ h ∈ _extract_highlights text items,
        (∀ s : Nat, strFind text h.text = some s →
          h.start = (s : Int) ∧ h.stop = (s : Int) + h.text.length ∧
            pySlice text h.start h.stop = h.text) ∧
        (strFind text h.text = none → strFind text (h.text.take 50) = none →
          h.start = -1 ∧ h.stop = -1) :=
  fun text items =>
    ⟨extract_highlights_length text items,
     fun h hmem => extract_highlights_spec text items h hmem⟩

/-- C2 witness: an exactly-matched highlight on a concrete text. -/
theorem C2_amended_offsets_witness :
    pySlice ['a', 'b'] 1 2 = ['b'] ∧
    (_extract_highlights ['a', 'b'] [PyItem.dict Option.none ['b'] Option.none]).length =
      ([PyItem.dict Option.none ['b'] Option.none].filter isValidItem).length := by
  have h := C2_amended_offsets ['a', 'b'] [PyItem.dict Option.none ['b'] Option.none]
  refine ⟨?_, h.1⟩
  have hm := h.2
    { ty := ['f', 'a', 'c', 't'], text := ['b'], start := 1, stop := 2,
      reason := Option.none } (by decide)
  exact (hm.1 1 (by decide)).2.2

/-- C3: on 3100 `x`s the splitter returns the two chunks `text[0:3000]` and
`text[3000:3100]`, which concatenate back to the whole text — consecutive
chunks are disjoint slices, and in particular the second chunk does not
repeat the 200-character tail of the first (`current_pos =
max(end_pos - CHUNK_OVERLAP, end_pos)` always equals `end_pos`, so the
configured overlap is never applied). -/
theorem C3_split_has_no_overlap :
    _split_into_chunks (List.replicate 3100 'x') =
      [List.replicate 3000 'x', List.replicate 100 'x'] ∧
    List.replicate 3000 'x' ++ List.replicate 100 'x' = List.replicate 3100 'x' ∧
    pySliceNat (List.replicate 100 'x') 0 CHUNK_OVERLAP ≠
      takeLastN (List.replicate 3000 'x') CHUNK_OVERLAP := by
  refine ⟨split_replicate_3100, ?_, ?_⟩
  · rw [← List.replicate_add]
  · intro heq
    have h1 : (pySliceNat (List.replicate 100 'x') 0 CHUNK_OVERLAP).length = 100 := by
      unfold pySliceNat
      rw [List.drop_replicate, List.take_replicate, List.length_replicate]
      norm_num [CHUNK_OVERLAP]
    have h2 : (takeLastN (List.replicate 3000 'x') CHUNK_OVERLAP).length = 200 := by
      unfold takeLastN
      rw [List.length_replicate, List.drop_replicate, List.length_replicate]
      norm_num [CHUNK_OVERLAP]
    rw [heq, h2] at h1
    norm_num at h1

/-- C5: at a failing input (30 `e`s with an all-`f` model translation, so
the Korean ratio validation fails) `translate_and_highlight` performs
exactly one translation call per chunk — one in total — and returns the
invalid merged translation anyway: the validation failure triggers no
retry of the translation chain (the source's `max_retries` parameter is
never read). -/
theorem C5_validation_failure_not_retried :
    (translate_and_highlight c5Oracle c5Text).validationFailed = true ∧
    (translate_and_highlight c5Oracle c5Text).translation =
      some (List.replicate 30 'f') ∧
    (translate_and_highlight c5Oracle c5Text).translateCalls = 1 ∧
    (_split_into_chunks c5Text).length = 1 := by
  decide

/-- C6 counterexample: 3100 `x`s exceed the chunk size, and
`merge(split(t))` keeps only 3000 of them — the whitespace-normalized
superset property fails (the spurious 100-character overlap match deletes
text, since split's chunks do not actually overlap). -/
theorem C6_counterexample :
    CHUNK_SIZE < (List.replicate 3100 'x').length ∧
    ¬ contentSupersetSpec
        (_merge_translations (_split_into_chunks (List.replicate 3100 'x')))
        (List.replicate 3100 'x') := by
  refine ⟨?_, merge_split_loses_content⟩
  rw [replicate_3100_length]
  norm_num [CHUNK_SIZE]

/-- C6 amended: merging a single-element list returns its element
unchanged, and when no suffix / prefix overlap is found at any of the
checked lengths (from `min(100, …)` down in steps of 5, stopping above
10) adjacent pieces are concatenated with a paragraph break. -/
theorem C6_merge_mechanism :
    (∀ x : Str, _merge_translations [x] = x) ∧
    (∀ p c : Str,
      (∀ k ∈ downBy5 (min 100 (min p.length c.length)),
        (takeLastN p k == c.take k) = false) →
      _merge_translations [p, c] = p ++ '\n' :: '\n' :: c) := by
  constructor
  · intro x
    rfl
  · intro p c hk
    rw [merge_pair]
    unfold mergeStep
    rw [List.find?_eq_none.mpr (fun k hmem => by rw [hk k hmem]; simp)]

/-- C6 witness: two pieces with no overlap joined by a paragraph break,
and a singleton merge. -/
theorem C6_merge_mechanism_witness :
    _merge_translations [['a'], ['b']] = ['a', '\n', '\n', 'b'] ∧
    _merge_translations [['a', 'b']] = ['a', 'b'] :=
  ⟨C6_merge_mechanism.2 ['a'] ['b'] (by decide), C6_merge_mechanism.1 ['a', 'b']⟩

/-- C7 counterexample: a 20001-character post returned by the FxTwitter
API flows through `TwitterScraper.scrape` and
`AnalysisService._fetch_external_content` entirely untruncated. -/
theorem C7_counterexample :
    fetch_external_content_twitter c7Oracle = some (List.replicate 20001 'a') ∧
    10000 < (List.replicate 20001 'a').length := by
  refine ⟨rfl, ?_⟩
  rw [List.length_replicate]
  norm_num

/-- C7 amended: the generic-page / raw-file truncation tail and the
YouTube transcript cut bound their outputs by 10003 characters, but the
social-post fetcher's API path returns its content unchanged. -/
theorem C7_truncation_bounds :
    (∀ c : Str, (truncateContent c 10000).length ≤ 10003) ∧
    (∀ c : Str, (ytTruncate c).length ≤ 10003) ∧
    (∀ o : TwitterOracle, o.fx.success = true → o.fx.content.isEmpty = false →
      o.fx.article_url = Option.none → (twitter_scrape o).content = o.fx.content) := by
  refine ⟨?_, ?_, ?_⟩
  · intro c
    unfold truncateContent
    split
    · simp only [List.length_append, List.length_take, List.length_cons, List.length_nil]
      omega
    · omega
  · intro c
    unfold ytTruncate
    split
    · simp only [List.length_append, List.length_take, List.length_cons, List.length_nil]
      omega
    · omega
  · intro o h1 h2 h3
    simp [twitter_scrape, h1, h2, h3]

/-- C7 witness for the amended statement. -/
theorem C7_truncation_bounds_witness :
    (twitter_scrape c7Oracle).content = c7Oracle.fx.content ∧
    (truncateContent [] 10000).length ≤ 10003 :=
  ⟨C7_truncation_bounds.2.2 c7Oracle rfl rfl rfl, C7_truncation_bounds.1 []⟩

/-- C8: both the combined-call filtering and the `match_interests`
fallback filtering only ever return tags that are literally elements of
the supplied interest list (so in particular present case-insensitively),
whatever the model's raw output. -/
theorem C8_interest_filtering :
    ∀ (ui : List Str) (raw : List PyStrItem) (rawStr : Str) (x : Str),
      (x ∈ filterMatchedInterests ui raw → x ∈ ui) ∧
      (x ∈ match_interests_filter ui rawStr → x ∈ ui) :=
  fun ui raw rawStr x =>
    ⟨filterMatched_subset ui raw x, matchFilter_subset ui rawStr x⟩

/-- C8 witness: a case-differing model tag maps back to the stored tag on
both paths. -/
theorem C8_interest_filtering_witness :
    ['B', 't', 'c'] ∈ ([['B', 't', 'c']] : List Str) ∧
    ['B', 't', 'c'] ∈ ([['B', 't', 'c']] : List Str) :=
  ⟨(C8_interest_filtering [['B', 't', 'c']] [PyStrItem.str ['b', 'T', 'c']]
      ['b', 'T', 'c'] ['B', 't', 'c']).1 (by decide),
   (C8_interest_filtering [['B', 't', 'c']] [PyStrItem.str ['b', 'T', 'c']]
      ['b', 'T', 'c'] ['B', 't', 'c']).2 (by decide)⟩

/-- C9: a reanalyze request against an `analyzing` memo is rejected with
HTTP 400 unless forced; every accepted request resets the status to
`pending` and clears the error message. -/
theorem C9_reanalyze_guard :
    ∀ (memo : MemoRecord) (force : Bool),
      (memo.analysis_status = "analyzing" → force = false →
        reanalyze_memo memo force = .error 400) ∧
      (∀ m', reanalyze_memo memo force = .ok m' →
        m'.analysis_status = "pending" ∧ m'.analysis_error = Option.none) := by
  intro memo force
  constructor
  · intro hs hf
    unfold reanalyze_memo
    rw [hf, hs]
    rfl
  · intro m' hm'
    unfold reanalyze_memo at hm'
    split at hm'
    · simp at hm'
    · obtain rfl := (Except.ok.inj hm').symm
      exact ⟨rfl, rfl⟩

/-- C9 witness: a concrete rejection and a concrete accepted reset. -/
theorem C9_reanalyze_guard_witness :
    reanalyze_memo ⟨"analyzing", some "e"⟩ false = .error 400 ∧
    (MemoRecord.mk "pending" Option.none).analysis_status = "pending" := by
  refine ⟨(C9_reanalyze_guard ⟨"analyzing", some "e"⟩ false).1 rfl rfl, ?_⟩
  exact ((C9_reanalyze_guard ⟨"failed", some "boom"⟩ true).2
    ⟨"pending", Option.none⟩ rfl).1

/-- C10: the bypass starts at most 3 browser sessions, polls at most 5
rounds per session, sleeps only values in the sampled 2–5 s range between
sessions, and when every session fails it returns `(None, False)` with
the manual-paste instruction, which `_fetch_html_content` turns into a
terminal fetch failure. -/
theorem C10_bypass_retry_structure :
    ∀ (attempts : Nat → AttemptOracle) (delays : Nat → ℚ),
      (∀ i, 2 ≤ delays i ∧ delays i ≤ 5) →
      (fetch_with_cloudflare_bypass attempts delays).attemptsUsed ≤ 3 ∧
      (∀ a, pollsPerformed (attempts a) ≤ 5) ∧
      (∀ x ∈ (fetch_with_cloudflare_bypass attempts delays).sleeps,
        2 ≤ x ∧ x ≤ 5) ∧
      ((∀ a, runBypassAttemptRes (attempts a) = Option.none) →
        (fetch_with_cloudflare_bypass attempts delays).html = Option.none ∧
        (fetch_with_cloudflare_bypass attempts delays).success = false ∧
        (fetch_with_cloudflare_bypass attempts delays).finalNotice =
          some "3회 시도 후 포기. 내용을 직접 복사해주세요." ∧
        fetchHtmlAfterCloudflareDetected (fetch_with_cloudflare_bypass attempts delays) =
          (Option.none, some cloudflareFailMessage)) := by
  intro attempts delays hd
  refine ⟨bypass_attempts_le attempts delays 3 3 0, fun a => pollsPerformed_le _,
    bypass_sleeps_range attempts delays 3 hd 3 0, ?_⟩
  intro hfail
  obtain ⟨h1, h2, h3⟩ := bypass_all_fail attempts delays 3 hfail 3 0 (by norm_num)
  unfold fetch_with_cloudflare_bypass
  refine ⟨h1, h2, ?_, ?_⟩
  · rw [h3]
    decide
  · unfold fetchHtmlAfterCloudflareDetected
    rw [h1]

/-- C10 witness: three failing sessions yield the terminal failure. -/
theorem C10_bypass_retry_structure_witness :
    (fetch_with_cloudflare_bypass (fun _ => AttemptOracle.sessionError "x")
        (fun _ => 3)).success = false ∧
    (fetch_with_cloudflare_bypass (fun _ => AttemptOracle.sessionError "x")
        (fun _ => 3)).attemptsUsed ≤ 3 := by
  have h := C10_bypass_retry_structure (fun _ => AttemptOracle.sessionError "x")
    (fun _ => 3) (fun i => by norm_num)
  exact ⟨(h.2.2.2 (fun a => rfl)).2.1, h.1⟩
